import Mathlib

/-!
Shallow embedding of the article blog API (Django project, app `articles`)
and verification of the listed behavioural claims.

Python strings are modelled as lists of characters (`Str`), so that every
operation is executable and kernel-decidable.  Each definition is translated
from the corresponding source function; the comment above each one names the
source location.
-/

set_option maxRecDepth 100000

/-- Python strings, modelled as lists of characters. -/
abbrev Str := List Char

/-- Characters that Python treats as whitespace in `str.split()` / `str.strip()`. -/
def isPySpace (c : Char) : Bool :=
  c == ' ' || c == '\t' || c == '\n' || c == '\r' || c == '\x0b' || c == '\x0c'

/-- Lowercasing, as `str.lower()` (ASCII range). -/
def lowerStr (s : Str) : Str := s.map Char.toLower

/-- Drop the trailing characters satisfying a predicate. -/
def dropEndWhile (p : Char → Bool) (s : Str) : Str := (s.reverse.dropWhile p).reverse

/-- Python `str.strip()`: remove leading and trailing whitespace. -/
def pyStrip (s : Str) : Str := dropEndWhile isPySpace (s.dropWhile isPySpace)

/-- Helper for `pyWords`: accumulates the current word reversed. -/
def pyWordsAux : Str → Str → List Str
  | [], acc => if acc.isEmpty then [] else [acc.reverse]
  | c :: cs, acc =>
      if isPySpace c then
        if acc.isEmpty then pyWordsAux cs [] else acc.reverse :: pyWordsAux cs []
      else pyWordsAux cs (c :: acc)

/-- Python `str.split()` with no argument: whitespace-delimited tokens, no empties. -/
def pyWords (s : Str) : List Str := pyWordsAux s []

/-- Python `str.split(sep)` for a single-character separator: keeps empty pieces. -/
def splitOnChar (sep : Char) : Str → List Str
  | [] => [[]]
  | c :: cs =>
      if c == sep then [] :: splitOnChar sep cs
      else
        match splitOnChar sep cs with
        | [] => [[c]]
        | w :: ws => (c :: w) :: ws

/-- Python `' '.join(words)`. -/
def joinSpace : List Str → Str
  | [] => []
  | [w] => w
  | w :: ws => w ++ ' ' :: joinSpace ws

/-- Python `','.join(items)`. -/
def joinComma : List Str → Str
  | [] => []
  | [w] => w
  | w :: ws => w ++ ',' :: joinComma ws

/-- Does the first list start with the second one. -/
def startsWithS : Str → Str → Bool
  | _, [] => true
  | [], _ :: _ => false
  | c :: cs, d :: ds => c == d && startsWithS cs ds

/-- Substring test: does `hay` contain `needle` as a contiguous substring. -/
def containsSub (hay needle : Str) : Bool :=
  if startsWithS hay needle then true
  else
    match hay with
    | [] => false
    | _ :: t => containsSub t needle

/-- Case-insensitive substring test, the semantics of the ORM lookup `icontains`. -/
def icontains (hay needle : Str) : Bool := containsSub (lowerStr hay) (lowerStr needle)

/-- Article.STATUS_CHOICES from articles/models.py. -/
inductive Status where
  | draft
  | published
  | archived
deriving DecidableEq, Repr

/-- The Article model, articles/models.py.  The author foreign key is its user id;
timestamps are abstract ticks; published_at is nullable. -/
structure Article where
  id : Nat
  title : Str
  slug : Str
  content : Str
  excerpt : Str
  author : Nat
  status : Status
  featured : Bool
  view_count : Nat
  tags : Str
  created_at : Nat
  published_at : Option Nat
deriving DecidableEq, Repr

/-- The acting identity of a request: anonymous, or an authenticated user
carrying its id and staff flag. -/
inductive Identity where
  | anonymous
  | user (uid : Nat) (is_staff : Bool)
deriving DecidableEq, Repr

/-- ArticleViewSet.get_queryset, articles/views.py lines 97-113: the base queryset
narrowed by the identity of the requester. -/
def get_queryset (ident : Identity) (qs : List Article) : List Article :=
  match ident with
  | Identity.anonymous => qs.filter (fun a => a.status == Status.published)
  | Identity.user uid is_staff =>
      if is_staff then qs
      else qs.filter (fun a => a.status == Status.published || a.author == uid)

/-- ArticleViewSet.retrieve, articles/views.py lines 115-130: the record as stored
after a single-article read (the increment is performed only for published
articles). -/
def retrieve_article (a : Article) : Article :=
  if a.status == Status.published then { a with view_count := a.view_count + 1 }
  else a

/-- C1: the base set of a collection listing is narrowed by identity before any
filter runs: anonymous sees exactly the published articles, an authenticated
non-staff user sees exactly the published ones plus its own, and staff sees
everything. -/
theorem get_queryset_spec (qs : List Article) (a : Article) (uid : Nat) :
    (a ∈ get_queryset Identity.anonymous qs ↔ a ∈ qs ∧ a.status = Status.published)
  ∧ (a ∈ get_queryset (Identity.user uid false) qs ↔
       a ∈ qs ∧ (a.status = Status.published ∨ a.author = uid))
  ∧ get_queryset (Identity.user uid true) qs = qs := by
  refine ⟨?_, ?_, ?_⟩
  · simp [get_queryset, List.mem_filter]
  · simp [get_queryset, List.mem_filter]
  · simp [get_queryset]

/-- C2: a single-article retrieval increments view_count by exactly one precisely
when the article is published, and leaves every other field alone. -/
theorem retrieve_view_count_spec (a : Article) :
    ((retrieve_article a).view_count = a.view_count + 1 ↔ a.status = Status.published)
  ∧ ((retrieve_article a).view_count = a.view_count ↔ a.status ≠ Status.published)
  ∧ (retrieve_article a).status = a.status := by
  by_cases h : a.status = Status.published
  · constructor
    · simp [retrieve_article, h]
    constructor
    · simp [retrieve_article, h]
    · simp [retrieve_article, h]
  · constructor
    · simp [retrieve_article, h]
    constructor
    · simp [retrieve_article, h]
    · simp [retrieve_article, h]

/-- Status and published_at handling of an update, combining
ArticleViewSet.perform_update (views.py lines 138-148),
ArticleDetailSerializer.validate (serializers.py lines 118-128) and
ArticleDetailSerializer.update (serializers.py lines 141-150).  Other writable
fields are orthogonal to this logic and kept fixed here. -/
def update_status (a : Article) (new_status : Status) (now : Nat) : Article :=
  if new_status == Status.published && !(a.status == Status.published) then
    { a with status := new_status, published_at := some now }
  else if new_status == Status.draft && a.status == Status.published then
    { a with status := new_status, published_at := none }
  else
    { a with status := new_status }

/-- C3: a transition into published from a non-published state stamps
published_at to now; a transition from published into draft clears it; every
transition that does not cross the published boundary leaves it untouched. -/
theorem update_status_published_at (a : Article) (ns : Status) (now : Nat) :
    (ns = Status.published → a.status ≠ Status.published →
       (update_status a ns now).published_at = some now)
  ∧ (ns = Status.draft → a.status = Status.published →
       (update_status a ns now).published_at = none)
  ∧ (¬(ns = Status.published ∧ a.status ≠ Status.published) →
      ¬(ns = Status.draft ∧ a.status = Status.published) →
       (update_status a ns now).published_at = a.published_at) := by
  refine ⟨?_, ?_, ?_⟩
  · intro h1 h2
    simp [update_status, h1, h2]
  · intro h1 h2
    simp [update_status, h1, h2]
  · intro h1 h2
    rcases Decidable.em (ns = Status.published) with hp | hp
    · have ha : a.status = Status.published := by
        by_contra hc
        exact h1 ⟨hp, hc⟩
      simp [update_status, hp, ha]
    · rcases Decidable.em (ns = Status.draft) with hd | hd
      · have ha : a.status ≠ Status.published := by
          intro hc
          exact h2 ⟨hd, hc⟩
        simp [update_status, hp, hd, ha]
      · simp [update_status, hp, hd]

/-- Fixed sample article used to instantiate the universally quantified
theorems on concrete inputs. -/
def articleA : Article :=
  { id := 1
  , title := "Hello World".data
  , slug := "hello-world".data
  , content := "some content here".data
  , excerpt := "short".data
  , author := 7
  , status := Status.draft
  , featured := false
  , view_count := 3
  , tags := "python,django".data
  , created_at := 100
  , published_at := none }

/-- C3 witness: publishing the sample draft article at tick 42 stamps
published_at to 42. -/
theorem update_status_published_at_witness :
    (update_status articleA Status.published 42).published_at = some 42 :=
  (update_status_published_at articleA Status.published 42).1 rfl (by decide)

/-- IsAuthorOrReadOnly.has_object_permission for a write method,
articles/permissions.py lines 9-15. -/
def is_author_write_permitted (uid : Nat) (a : Article) : Bool := a.author == uid

/-- An update request for one article: turned away by IsAuthenticatedOrReadOnly
when anonymous and by IsAuthorOrReadOnly when the acting user is not the
author (views.py line 68), otherwise executed through update_status. -/
def attempt_update (ident : Identity) (a : Article) (ns : Status) (now : Nat) :
    Except String Article :=
  match ident with
  | Identity.anonymous => Except.error "authorization"
  | Identity.user uid _ =>
      if is_author_write_permitted uid a then Except.ok (update_status a ns now)
      else Except.error "authorization"

/-- The stored record after an update attempt: unchanged when the attempt was
rejected. -/
def record_after (a : Article) (r : Except String Article) : Article :=
  match r with
  | Except.ok b => b
  | Except.error _ => a

/-- A delete request: same permission gate as update; on success the article is
removed from the store. -/
def attempt_destroy (ident : Identity) (store : List Article) (a : Article) :
    Except String (List Article) :=
  match ident with
  | Identity.anonymous => Except.error "authorization"
  | Identity.user uid _ =>
      if is_author_write_permitted uid a then
        Except.ok (store.filter (fun b => b.id != a.id))
      else Except.error "authorization"

/-- The store after a delete attempt: unchanged when the attempt was rejected. -/
def store_after (store : List Article) (r : Except String (List Article)) : List Article :=
  match r with
  | Except.ok s => s
  | Except.error _ => store

/-- Effect of ArticleViewSet.toggle_featured on the stored record, views.py
lines 288-307: the save is restricted to the featured column
(update_fields equal to the featured field only). -/
def toggle_featured (a : Article) : Article := { a with featured := !a.featured }

/-- The toggle_featured action itself: permission_classes is IsAuthenticated, and
the body rejects non-staff users; authorship is never consulted. -/
def toggle_featured_action (ident : Identity) (a : Article) : Except String Article :=
  match ident with
  | Identity.anonymous => Except.error "unauthenticated"
  | Identity.user _ is_staff =>
      if is_staff then Except.ok (toggle_featured a) else Except.error "staff"

/-- C4: every update or delete attempt by an identity other than the author,
staff included, is rejected and leaves the record and the store unchanged; the
featured toggle instead requires only staff and ignores authorship. -/
theorem author_only_mutation (a : Article) (uid : Nat) (st : Bool) (ns : Status)
    (now : Nat) (store : List Article) (h : a.author ≠ uid) :
    attempt_update (Identity.user uid st) a ns now = Except.error "authorization"
  ∧ record_after a (attempt_update (Identity.user uid st) a ns now) = a
  ∧ attempt_destroy (Identity.user uid st) store a = Except.error "authorization"
  ∧ store_after store (attempt_destroy (Identity.user uid st) store a) = store
  ∧ (∀ b : Article, toggle_featured_action (Identity.user uid true) b =
       Except.ok (toggle_featured b))
  ∧ toggle_featured_action (Identity.user uid false) a = Except.error "staff" := by
  have hp : is_author_write_permitted uid a = false := by
    simp [is_author_write_permitted, h]
  refine ⟨?_, ?_, ?_, ?_, ?_, ?_⟩
  · simp [attempt_update, hp]
  · simp [attempt_update, hp, record_after]
  · simp [attempt_destroy, hp]
  · simp [attempt_destroy, hp, store_after]
  · intro b
    simp [toggle_featured_action]
  · simp [toggle_featured_action]

/-- C4 witness: user 9 is not the author of the sample article (author 7); its
update attempt is rejected, and as staff it may still toggle featured. -/
theorem author_only_mutation_witness :
    attempt_update (Identity.user 9 true) articleA Status.published 5 =
      Except.error "authorization"
  ∧ toggle_featured_action (Identity.user 9 true) articleA =
      Except.ok (toggle_featured articleA) :=
  ⟨(author_only_mutation articleA 9 true Status.published 5 [] (by decide)).1,
   (author_only_mutation articleA 9 true Status.published 5 [] (by decide)).2.2.2.2.1
     articleA⟩

/-- C10: a featured toggle flips only the featured flag; every other stored
field is unchanged and a second application restores the original value. -/
theorem toggle_featured_frame (a : Article) :
    (toggle_featured a).featured = !a.featured
  ∧ (toggle_featured a).title = a.title
  ∧ (toggle_featured a).slug = a.slug
  ∧ (toggle_featured a).content = a.content
  ∧ (toggle_featured a).excerpt = a.excerpt
  ∧ (toggle_featured a).status = a.status
  ∧ (toggle_featured a).author = a.author
  ∧ (toggle_featured a).view_count = a.view_count
  ∧ (toggle_featured a).tags = a.tags
  ∧ (toggle_featured a).created_at = a.created_at
  ∧ (toggle_featured a).published_at = a.published_at
  ∧ (toggle_featured (toggle_featured a)).featured = a.featured := by
  refine ⟨rfl, rfl, rfl, rfl, rfl, rfl, rfl, rfl, rfl, rfl, rfl, ?_⟩
  simp [toggle_featured]

/-- Cleaning of a comma-separated tag value, the list comprehension shared by
ArticleFilter.filter_tags (filters.py line 113) and
ArticleDetailSerializer.validate_tags (serializers.py line 103): split on
commas, strip, drop blanks, lowercase. -/
def clean_tags (value : Str) : List Str :=
  ((splitOnChar ',' value).filter (fun t => !(pyStrip t).isEmpty)).map
    (fun t => lowerStr (pyStrip t))

/-- ArticleFilter.filter_tags, articles/filters.py lines 104-120: an OR of
icontains lookups over the cleaned terms; with no terms the Q object is empty
and the queryset passes through unchanged. -/
def filter_tags (qs : List Article) (value : Str) : List Article :=
  if value.isEmpty then qs
  else
    let terms := clean_tags value
    if terms.isEmpty then qs
    else qs.filter (fun a => terms.any (fun t => icontains a.tags t))

/-- C8: with at least one supplied term, the tag filter keeps exactly the
articles whose tags field contains some term as a case-insensitive substring:
a logical OR across the terms. -/
theorem filter_tags_spec (qs : List Article) (value : Str) (a : Article)
    (h : clean_tags value ≠ []) :
    a ∈ filter_tags qs value ↔
      a ∈ qs ∧ ∃ t ∈ clean_tags value, icontains a.tags t = true := by
  have hv : value ≠ [] := by
    intro hv
    exact h (by simp [hv, clean_tags, splitOnChar, pyStrip, dropEndWhile])
  have hv2 : value.isEmpty = false := by
    simp [List.isEmpty_iff, hv]
  have ht : (clean_tags value).isEmpty = false := by
    simp [List.isEmpty_iff, h]
  simp [filter_tags, hv2, ht, List.mem_filter, List.any_eq_true]

/-- C8 witness: the filter value with terms a and b keeps an article whose tags
contain b but not a. -/
theorem filter_tags_spec_witness :
    articleA ∈ filter_tags [articleA] "a, django ".data ↔
      articleA ∈ [articleA] ∧
        ∃ t ∈ clean_tags "a, django ".data, icontains articleA.tags t = true :=
  filter_tags_spec [articleA] "a, django ".data articleA (by decide)

/-- Excerpt derivation inside Article.save, articles/models.py lines 119-125:
when the excerpt is absent it becomes the first 30 whitespace tokens of the
content, space-joined, with an ellipsis exactly when tokens were cut. -/
def derive_excerpt (excerpt content : Str) : Str :=
  if excerpt.isEmpty then
    let e := joinSpace ((pyWords content).take 30)
    if 30 < (pyWords content).length then e ++ "...".data else e
  else excerpt

/-- C7 counterexample: a content of at most 30 tokens whose derived excerpt is
not the content unchanged, because the join normalizes the double space. -/
theorem derive_excerpt_claim_counterexample :
    (pyWords "short  content".data).length ≤ 30
  ∧ derive_excerpt [] "short  content".data ≠ "short  content".data := by
  constructor
  · decide
  · decide

/-- C7 amended: a present excerpt is kept; an absent one becomes the first 30
whitespace tokens of the content rejoined with single spaces, with an ellipsis
appended exactly when the content has more than 30 tokens; the result equals
the content unchanged when the content is already whitespace-normalized. -/
theorem derive_excerpt_spec (excerpt content : Str) :
    (excerpt ≠ [] → derive_excerpt excerpt content = excerpt)
  ∧ (excerpt = [] → (pyWords content).length ≤ 30 →
       derive_excerpt excerpt content = joinSpace (pyWords content))
  ∧ (excerpt = [] → 30 < (pyWords content).length →
       derive_excerpt excerpt content =
         joinSpace ((pyWords content).take 30) ++ "...".data)
  ∧ (excerpt = [] → (pyWords content).length ≤ 30 →
       content = joinSpace (pyWords content) →
       derive_excerpt excerpt content = content) := by
  refine ⟨?_, ?_, ?_, ?_⟩
  · intro h
    have he : excerpt.isEmpty = false := by simp [List.isEmpty_iff, h]
    simp [derive_excerpt, he]
  · intro h hn
    have hc : ¬30 < (pyWords content).length := by omega
    simp [derive_excerpt, h, hc, List.take_of_length_le hn]
  · intro h hn
    simp [derive_excerpt, h, hn]
  · intro h hn hc
    have hlt : ¬30 < (pyWords content).length := by omega
    simp [derive_excerpt, h, hlt, List.take_of_length_le hn, ← hc]

/-- C7 witness: on the double-spaced sample content the amended rule gives the
space-normalized join of its tokens. -/
theorem derive_excerpt_spec_witness :
    derive_excerpt [] "short  content".data = "short content".data := by
  have h := (derive_excerpt_spec [] "short  content".data).2.1 rfl (by decide)
  rw [h]
  decide

/-- Whitespace-token count of the content, as len(content.split()) in
Article.reading_time (models.py line 135) and
ArticleDetailSerializer.get_word_count. -/
def word_count (content : Str) : Nat := (pyWords content).length

/-- Python round(wc / 200): nearest integer, ties to even.  The float division
is exact at every tie (a multiple of one half), so integer arithmetic on the
quotient and remainder reproduces it. -/
def round_wc_200 (wc : Nat) : Nat :=
  if wc % 200 < 100 then wc / 200
  else if 100 < wc % 200 then wc / 200 + 1
  else if (wc / 200) % 2 == 0 then wc / 200 else wc / 200 + 1

/-- Article.reading_time, articles/models.py lines 129-136. -/
def reading_time (content : Str) : Nat := max 1 (round_wc_200 (word_count content))

/-- C9: reading_time is one floored against the rounding of word count over
200, that rounding never strays further than half a unit (100 words) from the
exact quotient, and the two quoted examples hold: 200 words give 1 and 450
words give 2. -/
theorem reading_time_spec (c : Str) :
    reading_time c = max 1 (round_wc_200 (word_count c))
  ∧ (∀ wc : Nat,
       (round_wc_200 wc : Int) * 200 - wc ≤ 100 ∧
       (wc : Int) - (round_wc_200 wc : Int) * 200 ≤ 100)
  ∧ (word_count c = 200 → reading_time c = 1)
  ∧ (word_count c = 450 → reading_time c = 2) := by
  refine ⟨rfl, ?_, ?_, ?_⟩
  · intro wc
    have hdm : 200 * (wc / 200) + wc % 200 = wc := Nat.div_add_mod wc 200
    have hr : wc % 200 < 200 := Nat.mod_lt wc (by omega)
    unfold round_wc_200
    split
    · constructor <;> omega
    · split
      · constructor <;> omega
      · split
        · constructor <;> omega
        · constructor <;> omega
  · intro h
    simp [reading_time, h, round_wc_200]
  · intro h
    simp [reading_time, h, round_wc_200]

/-- Sample content of exactly 200 single-letter words. -/
def content200 : Str := joinSpace (List.replicate 200 ['a'])

/-- Sample content of exactly 450 single-letter words. -/
def content450 : Str := joinSpace (List.replicate 450 ['a'])

/-- C9 witness: the two quoted examples evaluated on concrete contents. -/
theorem reading_time_spec_witness :
    reading_time content200 = 1 ∧ reading_time content450 = 2 :=
  ⟨(reading_time_spec content200).2.2.1 (by decide),
   (reading_time_spec content450).2.2.2 (by decide)⟩

/-- Regex word character in django.utils.text.slugify (ASCII range). -/
def isWordChar (c : Char) : Bool := c.isAlphanum || c == '_'

/-- Characters collapsed to single hyphens by slugify. -/
def isSlugSep (c : Char) : Bool := isPySpace c || c == '-'

/-- Characters stripped from both ends by slugify. -/
def isDashOrUnderscore (c : Char) : Bool := c == '-' || c == '_'

/-- Replace every run of separators by a single hyphen. -/
def collapseSep : Str → Str
  | [] => []
  | c :: cs =>
      if isSlugSep c then
        match cs with
        | [] => ['-']
        | d :: _ => if isSlugSep d then collapseSep cs else '-' :: collapseSep cs
      else c :: collapseSep cs

/-- django.utils.text.slugify on ASCII input: lowercase, delete characters that
are not word characters, whitespace or hyphens, collapse separator runs to one
hyphen, strip hyphens and underscores from both ends. -/
def slugify (t : Str) : Str :=
  dropEndWhile isDashOrUnderscore
    ((collapseSep ((lowerStr t).filter
        (fun c => isWordChar c || isPySpace c || c == '-'))).dropWhile
      isDashOrUnderscore)

/-- Decimal digit character. -/
def digitChar (d : Nat) : Char := Char.ofNat (48 + d)

/-- Fuelled decimal representation, most significant digit first. -/
def decRepAux : Nat → Nat → Str
  | 0, _ => []
  | fuel + 1, n =>
      if n < 10 then [digitChar n]
      else decRepAux fuel (n / 10) ++ [digitChar (n % 10)]

/-- Decimal representation of a natural number, the Python f-string rendering
of the counter. -/
def decRep (n : Nat) : Str := decRepAux (n + 1) n

/-- The k-th candidate slug tried by Article.save: the base slug itself, then
the base with -1, -2, and so on appended. -/
def candidate (base : Str) : Nat → Str
  | 0 => base
  | k + 1 => base ++ '-' :: decRep (k + 1)

/-- The uniqueness loop of Article.save, articles/models.py lines 107-117:
while the current slug is taken, move to the next suffixed candidate.  The
fuel bounds the iteration count; one more than the store size always
suffices. -/
def slug_loop (taken : List Str) (base : Str) : Nat → Nat → Str → Str
  | 0, _, slug => slug
  | fuel + 1, counter, slug =>
      if slug ∈ taken then
        slug_loop taken base fuel (counter + 1) (base ++ '-' :: decRep counter)
      else slug

/-- Slug assigned by Article.save to an article with the given title, when
`taken` is the set of slugs of the other stored articles (the queryset with
the own primary key excluded). -/
def article_slug (taken : List Str) (title : Str) : Str :=
  slug_loop taken (slugify title) (taken.length + 1) 1 (slugify title)

/-- Value of a digit string, used to invert decRep. -/
def decVal (s : Str) : Nat := s.foldl (fun acc c => acc * 10 + (c.toNat - 48)) 0

theorem decVal_append (s : Str) (c : Char) :
    decVal (s ++ [c]) = decVal s * 10 + (c.toNat - 48) := by
  simp [decVal, List.foldl_append]

theorem digitChar_toNat : ∀ d, d < 10 → (digitChar d).toNat = 48 + d := by decide

theorem decRepAux_val : ∀ fuel n, n < fuel → decVal (decRepAux fuel n) = n := by
  intro fuel
  induction fuel with
  | zero => intro n h; omega
  | succ f ih =>
      intro n h
      by_cases h10 : n < 10
      · have hd := digitChar_toNat n h10
        simp [decRepAux, h10, decVal]
        omega
      · have hdiv : n / 10 < n := Nat.div_lt_self (by omega) (by omega)
        have hmod : n % 10 < 10 := Nat.mod_lt n (by omega)
        have hd := digitChar_toNat (n % 10) hmod
        have hdm : 10 * (n / 10) + n % 10 = n := Nat.div_add_mod n 10
        rw [decRepAux]
        simp only [h10, if_false]
        rw [decVal_append, ih (n / 10) (by omega)]
        omega

theorem decRep_inj (a b : Nat) (h : decRep a = decRep b) : a = b := by
  have ha := decRepAux_val (a + 1) a (Nat.lt_succ_self a)
  have hb := decRepAux_val (b + 1) b (Nat.lt_succ_self b)
  rw [decRep] at h
  rw [decRep] at h
  rw [← ha, ← hb, h]

theorem candidate_inj (base : Str) : Function.Injective (candidate base) := by
  intro i j h
  cases i with
  | zero =>
      cases j with
      | zero => rfl
      | succ j2 =>
          exfalso
          have := congrArg List.length h
          simp [candidate] at this
  | succ i2 =>
      cases j with
      | zero =>
          exfalso
          have := congrArg List.length h
          simp [candidate] at this
      | succ j2 =>
          simp only [candidate] at h
          have h2 := List.append_cancel_left h
          have h3 : decRep (i2 + 1) = decRep (j2 + 1) := by
            injection h2
          have := decRep_inj _ _ h3
          omega

theorem exists_free_candidate (taken : List Str) (base : Str) :
    ∃ k, k ≤ taken.length ∧ candidate base k ∉ taken := by
  by_contra hcon
  push_neg at hcon
  have hsub : (Finset.range (taken.length + 1)).image (candidate base) ⊆
      taken.toFinset := by
    intro x hx
    rcases Finset.mem_image.mp hx with ⟨k, hk, hxk⟩
    have hk2 : k ≤ taken.length := by
      have := Finset.mem_range.mp hk
      omega
    rw [← hxk]
    exact List.mem_toFinset.mpr (hcon k hk2)
  have hcard1 : ((Finset.range (taken.length + 1)).image (candidate base)).card =
      taken.length + 1 := by
    rw [Finset.card_image_of_injective _ (candidate_inj base), Finset.card_range]
  have hcard2 := Finset.card_le_card hsub
  have hcard3 := List.toFinset_card_le taken
  omega

theorem slug_loop_free (taken : List Str) (base : Str) :
    ∀ fuel counter, 1 ≤ counter →
      (∃ j, j < fuel ∧ candidate base (counter - 1 + j) ∉ taken) →
      slug_loop taken base fuel counter (candidate base (counter - 1)) ∉ taken := by
  intro fuel
  induction fuel with
  | zero =>
      intro counter hc h
      rcases h with ⟨j, hj, _⟩
      omega
  | succ f ih =>
      intro counter hc h
      rcases h with ⟨j, hj, hfree⟩
      rw [slug_loop]
      by_cases hm : candidate base (counter - 1) ∈ taken
      · simp only [hm, if_true]
        have hj0 : j ≠ 0 := by
          intro hj0
          rw [hj0, Nat.add_zero] at hfree
          exact hfree hm
        have hcand : base ++ '-' :: decRep counter = candidate base (counter + 1 - 1) := by
          cases counter with
          | zero => omega
          | succ c2 => rfl
        rw [hcand]
        have hidx : candidate base (counter + 1 - 1 + (j - 1)) ∉ taken := by
          have : counter + 1 - 1 + (j - 1) = counter - 1 + j := by omega
          rw [this]
          exact hfree
        exact ih (counter + 1) (by omega) ⟨j - 1, by omega, hidx⟩
      · simp [hm]

theorem slug_loop_exact (taken : List Str) (base : Str) :
    ∀ fuel k counter, 1 ≤ counter → k < fuel →
      (∀ j, j < k → candidate base (counter - 1 + j) ∈ taken) →
      candidate base (counter - 1 + k) ∉ taken →
      slug_loop taken base fuel counter (candidate base (counter - 1)) =
        candidate base (counter - 1 + k) := by
  intro fuel
  induction fuel with
  | zero => intro k counter hc hk hmem hfree; omega
  | succ f ih =>
      intro k counter hc hk hmem hfree
      cases k with
      | zero =>
          have h0 : candidate base (counter - 1) ∉ taken := by
            have : counter - 1 + 0 = counter - 1 := by omega
            rw [this] at hfree
            exact hfree
          rw [slug_loop]
          simp only [h0, if_false]
          have : counter - 1 + 0 = counter - 1 := by omega
          rw [this]
      | succ k2 =>
          have h0 : candidate base (counter - 1) ∈ taken := by
            have h1 := hmem 0 (by omega)
            have : counter - 1 + 0 = counter - 1 := by omega
            rw [this] at h1
            exact h1
          rw [slug_loop]
          simp only [h0, if_true]
          have hcand : base ++ '-' :: decRep counter = candidate base (counter + 1 - 1) := by
            cases counter with
            | zero => omega
            | succ c2 => rfl
          rw [hcand]
          have hmem2 : ∀ j, j < k2 → candidate base (counter + 1 - 1 + j) ∈ taken := by
            intro j hjk
            have h1 := hmem (j + 1) (by omega)
            have : counter - 1 + (j + 1) = counter + 1 - 1 + j := by omega
            rw [this] at h1
            exact h1
          have hfree2 : candidate base (counter + 1 - 1 + k2) ∉ taken := by
            have : counter - 1 + (k2 + 1) = counter + 1 - 1 + k2 := by omega
            rw [this] at hfree
            exact hfree
          have hres := ih k2 (counter + 1) (by omega) (by omega) hmem2 hfree2
          rw [hres]
          have : counter + 1 - 1 + k2 = counter - 1 + (k2 + 1) := by omega
          rw [this]

/-- C5: the slug assigned by Article.save is never one of the taken slugs; it
is the base slug when that is free, the base with the suffix -1 when only the
base is taken, and in general the first free candidate in the order base,
base-1, base-2, and so on; two articles saved in turn with case-insensitively
identical titles into an empty store get the base slug and then the base slug
with -1 appended. -/
theorem article_slug_spec (taken : List Str) (title titleB : Str)
    (hB : lowerStr titleB = lowerStr title) :
    article_slug taken title ∉ taken
  ∧ (slugify title ∉ taken → article_slug taken title = slugify title)
  ∧ (slugify title ∈ taken → candidate (slugify title) 1 ∉ taken →
       article_slug taken title = slugify title ++ "-1".data)
  ∧ (∀ k, k ≤ taken.length → (∀ j, j < k → candidate (slugify title) j ∈ taken) →
       candidate (slugify title) k ∉ taken →
       article_slug taken title = candidate (slugify title) k)
  ∧ article_slug [] title = slugify title
  ∧ article_slug [slugify title] titleB = slugify title ++ "-1".data := by
  have hslug : slugify titleB = slugify title := by
    simp only [slugify, hB]
  have hc1 : ∀ base : Str, candidate base 1 = base ++ "-1".data := by
    intro base
    have hd : decRep 1 = ['1'] := by decide
    show base ++ '-' :: decRep 1 = base ++ "-1".data
    rw [hd]
  have hgen : ∀ k, k ≤ taken.length →
      (∀ j, j < k → candidate (slugify title) j ∈ taken) →
      candidate (slugify title) k ∉ taken →
      article_slug taken title = candidate (slugify title) k := by
    intro k hk hmem hfree
    have hmem2 : ∀ j, j < k → candidate (slugify title) (1 - 1 + j) ∈ taken := by
      intro j hj
      simpa using hmem j hj
    have hfree2 : candidate (slugify title) (1 - 1 + k) ∉ taken := by
      simpa using hfree
    have h := slug_loop_exact taken (slugify title) (taken.length + 1) k 1
      (by omega) (by omega) hmem2 hfree2
    have hcand0 : candidate (slugify title) (1 - 1) = slugify title := rfl
    rw [hcand0] at h
    rw [article_slug, h]
    congr 1
    omega
  refine ⟨?_, ?_, ?_, hgen, ?_, ?_⟩
  · rcases exists_free_candidate taken (slugify title) with ⟨k, hk, hkf⟩
    have h := slug_loop_free taken (slugify title) (taken.length + 1) 1
      (by omega) ⟨k, by omega, by simpa using hkf⟩
    have hcand0 : candidate (slugify title) (1 - 1) = slugify title := rfl
    rw [hcand0] at h
    rw [article_slug]
    exact h
  · intro hfree
    have h := hgen 0 (by omega) (by intro j hj; omega) (by simpa using hfree)
    simpa using h
  · intro hmem hfree
    have hlen : 0 < taken.length := List.length_pos.mpr (List.ne_nil_of_mem hmem)
    have h := hgen 1 (by omega)
      (by
        intro j hj
        have hj0 : j = 0 := by omega
        rw [hj0]
        exact hmem)
      hfree
    rw [h, hc1]
  · rw [article_slug]
    simp [slug_loop]
  · have hne : candidate (slugify title) 1 ∉ [slugify title] := by
      rw [hc1]
      intro hmem
      have heq := List.mem_singleton.mp hmem
      have hl := congrArg List.length heq
      rw [List.length_append] at hl
      have h2 : ("-1".data).length = 2 := by decide
      omega
    have hmem2 : ∀ j, j < 1 →
        candidate (slugify titleB) (1 - 1 + j) ∈ [slugify title] := by
      intro j hj
      have hj0 : j = 0 := by omega
      rw [hj0, hslug]
      exact List.mem_singleton.mpr rfl
    have hfree2 : candidate (slugify titleB) (1 - 1 + 1) ∉ [slugify title] := by
      rw [hslug]
      simpa using hne
    have h := slug_loop_exact [slugify title] (slugify titleB) 2 1 1
      (by omega) (by omega) hmem2 hfree2
    have hcand0 : candidate (slugify titleB) (1 - 1) = slugify titleB := rfl
    rw [hcand0] at h
    rw [article_slug]
    show slug_loop [slugify title] (slugify titleB) 2 1 (slugify titleB) =
      slugify title ++ "-1".data
    rw [h, hslug]
    show candidate (slugify title) 1 = slugify title ++ "-1".data
    rw [hc1]

/-- C5 witness: saving Hello World into an empty store and then HELLO world
next to it yields the base slug and the base slug suffixed with -1. -/
theorem article_slug_spec_witness :
    article_slug [slugify "Hello World".data] "HELLO world".data =
      slugify "Hello World".data ++ "-1".data :=
  (article_slug_spec [] "Hello World".data "HELLO world".data (by decide)).2.2.2.2.2

/-- Field identifying a ValidationError raised by the serializer. -/
inductive VField where
  | title
  | content
  | tags
deriving DecidableEq, Repr

/-- Is the result a ValidationError. -/
def isErr {α : Type} (r : Except VField α) : Bool :=
  match r with
  | Except.error _ => true
  | Except.ok _ => false

/-- The queryset of ArticleDetailSerializer.validate_title, serializers.py
lines 78-82: articles whose title equals the stripped value case-insensitively,
with the own primary key excluded on update. -/
def titleDupFilter (store : List Article) (selfPk : Option Nat) (value : Str) :
    List Article :=
  match selfPk with
  | some pk =>
      (store.filter (fun a => lowerStr a.title == lowerStr (pyStrip value))).filter
        (fun a => a.id != pk)
  | none => store.filter (fun a => lowerStr a.title == lowerStr (pyStrip value))

/-- ArticleDetailSerializer.validate_title, serializers.py lines 71-87. -/
def validate_title (store : List Article) (selfPk : Option Nat) (value : Str) :
    Except VField Str :=
  if (pyStrip value).length < 5 then Except.error VField.title
  else if (titleDupFilter store selfPk value).isEmpty then Except.ok (pyStrip value)
  else Except.error VField.title

/-- ArticleDetailSerializer.validate_content, serializers.py lines 89-95. -/
def validate_content (value : Str) : Except VField Str :=
  if (pyStrip value).length < 10 then Except.error VField.content
  else Except.ok (pyStrip value)

/-- Order-preserving removal of duplicates with a seen set, the loop of
validate_tags, serializers.py lines 107-113. -/
def dedupAux : List Str → List Str → List Str
  | _, [] => []
  | seen, t :: ts => if t ∈ seen then dedupAux seen ts else t :: dedupAux (t :: seen) ts

/-- First-occurrence deduplication of the cleaned tags. -/
def dedupTags (l : List Str) : List Str := dedupAux [] l

/-- ArticleDetailSerializer.validate_tags, serializers.py lines 97-116: a falsy
value passes through; otherwise the cleaned tag list is length-checked before
deduplication, and the deduplicated tags are rejoined with commas. -/
def validate_tags (value : Str) : Except VField Str :=
  if value.isEmpty then Except.ok value
  else if 10 < (clean_tags value).length then Except.error VField.tags
  else Except.ok (joinComma (dedupTags (clean_tags value)))

/-- The whole field validation pass of a create or update request. -/
def run_validation (store : List Article) (selfPk : Option Nat)
    (title content tags : Str) : Except VField (Str × Str × Str) :=
  match validate_title store selfPk title with
  | Except.error e => Except.error e
  | Except.ok t =>
      match validate_content content with
      | Except.error e => Except.error e
      | Except.ok c =>
          match validate_tags tags with
          | Except.error e => Except.error e
          | Except.ok g => Except.ok (t, c, g)

/-- Article.save, articles/models.py lines 102-127: derive the slug when absent,
taking the slugs of the other stored articles as occupied, and derive the
excerpt when absent. -/
def article_save (a : Article) (others : List Article) : Article :=
  { a with
    slug :=
      if a.slug.isEmpty then article_slug (others.map (fun b => b.slug)) a.title
      else a.slug
  , excerpt := derive_excerpt a.excerpt a.content }

/-- A create request: validation first, then the saved article is appended; on
a ValidationError the store is untouched. -/
def create_article (store : List Article) (nid author : Nat)
    (title content tags : Str) : List Article × Option VField :=
  match run_validation store none title content tags with
  | Except.error e => (store, some e)
  | Except.ok (t, c, g) =>
      (store ++
        [article_save
          { id := nid, title := t, slug := [], content := c, excerpt := []
          , author := author, status := Status.draft, featured := false
          , view_count := 0, tags := g, created_at := 0, published_at := none }
          store]
      , none)

/-- An update request for the article with the given primary key: validation
with the own id excluded, then the stored record is replaced; on a
ValidationError the store is untouched. -/
def update_article (store : List Article) (pk : Nat)
    (title content tags : Str) : List Article × Option VField :=
  match run_validation store (some pk) title content tags with
  | Except.error e => (store, some e)
  | Except.ok (t, c, g) =>
      (store.map (fun a =>
        if a.id == pk then
          article_save { a with title := t, content := c, tags := g }
            (store.filter (fun b => b.id != pk))
        else a)
      , none)

theorem mem_titleDupFilter (store : List Article) (selfPk : Option Nat)
    (value : Str) (a : Article) :
    a ∈ titleDupFilter store selfPk value ↔
      a ∈ store ∧ lowerStr a.title = lowerStr (pyStrip value) ∧ ¬selfPk = some a.id := by
  cases selfPk with
  | none => simp [titleDupFilter, List.mem_filter]
  | some pk =>
      simp only [titleDupFilter, List.mem_filter, List.mem_filter]
      constructor
      · intro h
        refine ⟨h.1.1, by simpa using h.1.2, ?_⟩
        intro hc
        injection hc with hc2
        have := h.2
        simp [hc2] at this
      · intro h
        refine ⟨⟨h.1, by simpa using h.2.1⟩, ?_⟩
        have : a.id ≠ pk := by
          intro hc
          exact h.2.2 (by rw [hc])
        simpa using this

theorem validate_title_err (store : List Article) (selfPk : Option Nat) (value : Str) :
    isErr (validate_title store selfPk value) = true ↔
      (pyStrip value).length < 5 ∨
        ∃ a ∈ store, ¬selfPk = some a.id ∧ lowerStr a.title = lowerStr (pyStrip value) := by
  by_cases h5 : (pyStrip value).length < 5
  · simp [validate_title, h5, isErr]
  · by_cases he : (titleDupFilter store selfPk value).isEmpty
    · have hnil := List.isEmpty_iff.mp he
      have hnoex : ¬∃ a ∈ store,
          ¬selfPk = some a.id ∧ lowerStr a.title = lowerStr (pyStrip value) := by
        rintro ⟨a, ha, hex, htl⟩
        have hmem : a ∈ titleDupFilter store selfPk value :=
          (mem_titleDupFilter store selfPk value a).mpr ⟨ha, htl, hex⟩
        rw [hnil] at hmem
        exact absurd hmem (List.not_mem_nil a)
      simp [validate_title, h5, he, isErr, hnoex]
    · have hne : titleDupFilter store selfPk value ≠ [] := by
        intro hc
        exact he (List.isEmpty_iff.mpr hc)
      rcases List.exists_mem_of_ne_nil _ hne with ⟨a, ha⟩
      have hmem := (mem_titleDupFilter store selfPk value a).mp ha
      have hex : ∃ a ∈ store,
          ¬selfPk = some a.id ∧ lowerStr a.title = lowerStr (pyStrip value) :=
        ⟨a, hmem.1, hmem.2.2, hmem.2.1⟩
      simp [validate_title, h5, he, isErr, hex]

theorem validate_content_err (value : Str) :
    isErr (validate_content value) = true ↔ (pyStrip value).length < 10 := by
  by_cases h : (pyStrip value).length < 10
  · simp [validate_content, h, isErr]
  · simp [validate_content, h, isErr]

theorem validate_tags_err (value : Str) :
    isErr (validate_tags value) = true ↔ 10 < (clean_tags value).length := by
  by_cases hv : value.isEmpty
  · have hnil := List.isEmpty_iff.mp hv
    have hct : clean_tags value = [] := by
      rw [hnil]
      decide
    simp [validate_tags, hv, isErr, hct]
  · by_cases hl : 10 < (clean_tags value).length
    · simp [validate_tags, hv, hl, isErr]
    · simp [validate_tags, hv, hl, isErr]

theorem run_validation_err (store : List Article) (selfPk : Option Nat)
    (title content tags : Str) :
    isErr (run_validation store selfPk title content tags) = true ↔
      isErr (validate_title store selfPk title) = true
      ∨ isErr (validate_content content) = true
      ∨ isErr (validate_tags tags) = true := by
  cases ht : validate_title store selfPk title with
  | error e => simp [run_validation, ht, isErr]
  | ok t =>
      cases hc : validate_content content with
      | error e => simp [run_validation, ht, hc, isErr]
      | ok c =>
          cases hg : validate_tags tags with
          | error e => simp [run_validation, ht, hc, hg, isErr]
          | ok g => simp [run_validation, ht, hc, hg, isErr]

/-- C6: a create or update attempt raises a field-scoped ValidationError
exactly when the stripped title is shorter than 5, some other stored article
shares the stripped title case-insensitively, the stripped content is shorter
than 10, or the cleaned tag list has more than 10 entries; and on a
ValidationError the store is left untouched. -/
theorem validation_spec (store : List Article) (selfPk : Option Nat)
    (nid author : Nat) (title content tags : Str) :
    (isErr (run_validation store selfPk title content tags) = true ↔
       (pyStrip title).length < 5
       ∨ (∃ a ∈ store, ¬selfPk = some a.id ∧ lowerStr a.title = lowerStr (pyStrip title))
       ∨ (pyStrip content).length < 10
       ∨ 10 < (clean_tags tags).length)
  ∧ (isErr (run_validation store none title content tags) = true →
       (create_article store nid author title content tags).1 = store)
  ∧ (∀ pk, isErr (run_validation store (some pk) title content tags) = true →
       (update_article store pk title content tags).1 = store) := by
  refine ⟨?_, ?_, ?_⟩
  · rw [run_validation_err, validate_title_err, validate_content_err,
      validate_tags_err]
    exact or_assoc
  · intro herr
    cases hre : run_validation store none title content tags with
    | error e => simp [create_article, hre]
    | ok v =>
        rw [hre] at herr
        simp [isErr] at herr
  · intro pk herr
    cases hre : run_validation store (some pk) title content tags with
    | error e => simp [update_article, hre]
    | ok v =>
        rw [hre] at herr
        simp [isErr] at herr

/-- C6 witness: a four-character title is rejected and neither a create nor an
update writes anything. -/
theorem validation_spec_witness :
    (create_article [] 1 7 "abcd".data "long enough content".data "python".data).1 = []
  ∧ (update_article [] 1 "abcd".data "long enough content".data "python".data).1 = [] :=
  ⟨(validation_spec [] none 1 7 "abcd".data "long enough content".data
      "python".data).2.1 (by decide),
   (validation_spec [] none 1 7 "abcd".data "long enough content".data
      "python".data).2.2 1 (by decide)⟩
